import Mathlib

/-!
Verification of the likelihood engine of the ugali repository
(`src/analysis/loglike.py`, class `LogLikelihood`).

Modelling conventions of this shallow embedding:

* numpy float arrays become `List ℚ`; elementwise products are `List.zipWith`,
  `numpy.sum` is `List.sum`.  Where the source explicitly tests for IEEE NaN
  (`fit_richness`), array entries are modelled as `Option ℚ`, `none` denoting NaN.
* The external collaborator objects (isochrone, kernel, mask, ROI, catalog) are
  fixed for the lifetime of the engine; their density evaluators are carried in
  an environment `Env` as functions of the owning sub-model's parameter values,
  exactly the data the source passes to them.
* Python exceptions become `Except String`.
* `math.log` is transcendental, so the scalar likelihood takes the logarithm as
  an explicit function argument; no claim depends on its values.
-/

/-- Environment of external collaborators consumed by the engine, as functions of
the parameter values of the owning sub-model (`src/analysis/loglike.py` passes
exactly those parameters to each call).  `observableFraction` is
`isochrone.observableFraction(mask, distance_modulus)` (per ROI pixel);
`isochrone_pdf` is `isochrone.pdf(...)` (per catalog object, line 321);
`kernel_pdf_pix` / `kernel_pdf_obj` are `kernel.pdf` at the interior pixels and
at the catalog objects (lines 354 and 359); `area_pixel` is `roi.area_pixel`. -/
structure Env where
  area_pixel : ℚ
  observableFraction : List (String × ℚ) → List ℚ
  isochrone_pdf : List (String × ℚ) → List ℚ
  kernel_pdf_pix : List (String × ℚ) → List ℚ
  kernel_pdf_obj : List (String × ℚ) → List ℚ

/-- State of a `LogLikelihood` engine: the owned sub-model parameter values
(richness model, color model, spatial model), the per-group dirty flags
(`self._sync`), the derived per-pixel and per-object arrays, the protected
quantities `u`, `b`, `p`, `f`, the `spatial_only` configuration switch, and the
plain instance attributes created through `object.__setattr__`. -/
structure LLState where
  richnessVal : ℚ
  colorParams : List (String × ℚ)
  spatialParams : List (String × ℚ)
  sync_richness : Bool
  sync_color : Bool
  sync_spatial : Bool
  observable_fraction : List ℚ
  u_color : List ℚ
  u_spatial : List ℚ
  surface_intensity_sparse : List ℚ
  u : List ℚ
  b : List ℚ
  p : List ℚ
  f : ℚ
  spatial_only : Bool
  extraAttrs : List (String × ℚ)
  deriving DecidableEq

/-- The read-only class properties of `LogLikelihood` (lines 104-137): writing to
any of them through `object.__setattr__` raises `AttributeError` because they are
properties without a setter. -/
def ro_properties : List String :=
  ["kernel", "isochrone", "params", "pixel", "u", "b", "p", "f"]

/-- Update the value of an existing key of a parameter mapping (the owning
sub-model's `setattr(model, name, value)`). -/
def assoc_set (l : List (String × ℚ)) (k : String) (v : ℚ) : List (String × ℚ) :=
  l.map (fun kv => if kv.1 = k then (k, v) else kv)

/-- Python instance-dictionary write: overwrite an existing key or add a new one. -/
def dict_set (l : List (String × ℚ)) (k : String) (v : ℚ) : List (String × ℚ) :=
  if (List.lookup k l).isSome then assoc_set l k v else l ++ [(k, v)]

/-- `LogLikelihood.__setattr__` (lines 84-90): scan the owned models in order
(richness, color, spatial); the first model whose parameter set contains `name`
gets the value and its group is marked dirty.  Otherwise the write falls through
to `object.__setattr__`, which raises `AttributeError` exactly for the read-only
properties and otherwise stores the value as a plain instance attribute. -/
def ll_setattr (st : LLState) (name : String) (v : ℚ) : Except String LLState :=
  if name = "richness" then
    Except.ok { st with sync_richness := true, richnessVal := v }
  else if (st.colorParams.lookup name).isSome then
    Except.ok { st with sync_color := true, colorParams := assoc_set st.colorParams name v }
  else if (st.spatialParams.lookup name).isSome then
    Except.ok { st with sync_spatial := true, spatialParams := assoc_set st.spatialParams name v }
  else if name ∈ ro_properties then
    Except.error "AttributeError: cannot set attribute"
  else
    Except.ok { st with extraAttrs := dict_set st.extraAttrs name v }

/-- `LogLikelihood.calc_observable_fraction` (lines 302-313): delegate to the
color model; raise `ValueError` when the summed observable fraction is not
positive. -/
def calc_observable_fraction (env : Env) (colorParams : List (String × ℚ)) :
    Except String (List ℚ) :=
  let observable_fraction := env.observableFraction colorParams
  if ¬ 0 < observable_fraction.sum then Except.error "No observable fraction"
  else Except.ok observable_fraction

/-- Color branch of `sync_params` (lines 177-179): when the color group is dirty,
recompute the observable fraction and the per-object color density `u_color`. -/
def sync_color_step (env : Env) (st : LLState) : Except String LLState :=
  if st.sync_color then
    match calc_observable_fraction env st.colorParams with
    | Except.error e => Except.error e
    | Except.ok of =>
        Except.ok { st with observable_fraction := of,
                            u_color := env.isochrone_pdf st.colorParams }
  else Except.ok st

/-- Spatial branch of `sync_params` (lines 180-181 and `calc_signal_spatial`,
lines 348-364): when the spatial group is dirty, recompute the per-pixel surface
intensity and the per-object spatial density `u_spatial`. -/
def sync_spatial_step (env : Env) (st : LLState) : LLState :=
  if st.sync_spatial then
    { st with surface_intensity_sparse := env.kernel_pdf_pix st.spatialParams,
              u_spatial := env.kernel_pdf_obj st.spatialParams }
  else st

/-- Combination step of `sync_params` (lines 183-207), which always runs:
`u = u_spatial * u_color`, `f = area_pixel * Σ (surface_intensity_sparse *
observable_fraction)`, the `spatial_only` override with the binarized observable
fraction, the mixture probability `p = (richness*u) / (richness*u + b)`, and the
reset of every dirty flag. -/
def combine_step (env : Env) (st : LLState) : LLState :=
  let u0 := List.zipWith (fun a c => a * c) st.u_spatial st.u_color
  let f0 := env.area_pixel *
    (List.zipWith (fun s o => s * o) st.surface_intensity_sparse st.observable_fraction).sum
  let u := if st.spatial_only then st.u_spatial else u0
  let f := if st.spatial_only then
      env.area_pixel *
        (List.zipWith (fun s o => s * (if 0 < o then (1:ℚ) else 0))
          st.surface_intensity_sparse st.observable_fraction).sum
    else f0
  let p := List.zipWith (fun ui bi => (st.richnessVal * ui) / (st.richnessVal * ui + bi)) u st.b
  { st with u := u, f := f, p := p,
            sync_richness := false, sync_color := false, sync_spatial := false }

/-- The elementwise mixture probability of line 199 under IEEE float semantics:
when the denominator `richness * u + b` is zero, the numpy quotient is not a
finite number (`0/0` is NaN and `x/0` with `x ≠ 0` is a signed infinity), which
is modelled as `none`; otherwise the exact finite quotient.  The `List ℚ` state
of `combine_step` stores the exact-rational quotient, which coincides with this
value exactly on the nonzero-denominator domain. -/
def p_mixture (richness u b : ℚ) : Option ℚ :=
  if richness * u + b = 0 then none
  else some ((richness * u) / (richness * u + b))

/-- `LogLikelihood.sync_params` (lines 169-207): the richness group needs no
recomputation; run the color branch (which can raise), the spatial branch, then
the combination step. -/
def sync_params (env : Env) (st : LLState) : Except String LLState :=
  match sync_color_step env st with
  | Except.error e => Except.error e
  | Except.ok st2 => Except.ok (combine_step env (sync_spatial_step env st2))

/-- `LogLikelihood.__call__` (lines 71-75): the scalar likelihood
`-1 * Σ log(1 - p) - f * richness`.  The logarithm is passed explicitly. -/
def ll_call (log : ℚ → ℚ) (st : LLState) : ℚ :=
  -1 * (st.p.map (fun pi => log (1 - pi))).sum - st.f * st.richnessVal

/-- Modelled from the spec: the parabola fit object of
`ugali.utils.parabola.Parabola` (the module is not under `src/`); the spec only
says a parabola is fitted through all evaluated `(richness, 2*loglike)` points,
so the object records those points, and its derived quantities (vertex abscissa,
profile upper limit, confidence interval) are supplied as oracle functions where
needed. -/
structure Parabola where
  xs : List ℚ
  ys : List ℚ
  deriving DecidableEq

/-- numpy truthiness of a float: nonzero (NaN counts as true). -/
def np_truthy (x : Option ℚ) : Bool :=
  match x with
  | none => true
  | some q => decide (q ≠ 0)

/-- `numpy.max` over a nonempty list. -/
def listMax (l : List ℚ) : ℚ :=
  l.foldl max (l.headD 0)

/-- `numpy.argmax`: first index attaining the maximum. -/
def np_argmax : List ℚ → ℕ
  | [] => 0
  | [_] => 0
  | x :: y :: ys =>
      let j := np_argmax (y :: ys)
      if x < (y :: ys).getD j 0 then j + 1 else 0

/-- The `while not found_maximum` loop of `fit_richness` (lines 391-406).
`value` is `self.value(richness=r)` for the current remaining parameters and
`vertex_x` the parabola vertex abscissa.  The fuel counts loop-body executions:
the source increments `iteration` after the body and breaks once
`iteration > maxiter`, so the body runs at most `maxiter + 1` times and the loop
is started with fuel `maxiter + 1`.  The threaded `par` is the parabola built by
the most recent body, which is what the source returns after a cap break. -/
def fit_loop (value : ℚ → ℚ) (vertex_x : Parabola → ℚ) (atol : ℚ) :
    ℕ → List ℚ → List ℚ → Parabola → List ℚ × List ℚ × Parabola
  | 0, richness, loglike, par => (richness, loglike, par)
  | fuel + 1, richness, loglike, _ =>
      let par := Parabola.mk richness (loglike.map (fun y => 2 * y))
      let vx := vertex_x par
      if vx < 0 then (richness, loglike, par)
      else
        let lNew := value vx
        let richness2 := richness ++ [vx]
        let loglike2 := loglike ++ [lNew]
        if |lNew - listMax loglike| < atol then (richness2, loglike2, par)
        else fit_loop value vertex_x atol fuel richness2 loglike2 par

/-- Non-degenerate path of `fit_richness` (lines 384-406): seed the three trial
points `0`, `1/f`, `10/f`, evaluate the likelihood at each, then iterate. -/
def fit_run (f : ℚ) (value : ℚ → ℚ) (vertex_x : Parabola → ℚ) (atol : ℚ)
    (maxiter : ℕ) : List ℚ × List ℚ × Parabola :=
  let richness : List ℚ := [0, 1 / f, 10 / f]
  let loglike := richness.map value
  fit_loop value vertex_x atol (maxiter + 1) richness loglike
    (Parabola.mk richness (loglike.map (fun y => 2 * y)))

/-- The full lists of evaluated trial richness values and log-likelihoods of a
`fit_richness` run (non-degenerate path). -/
def fit_trials (f : ℚ) (value : ℚ → ℚ) (vertex_x : Parabola → ℚ) (atol : ℚ)
    (maxiter : ℕ) : List ℚ × List ℚ :=
  ((fit_run f value vertex_x atol maxiter).1, (fit_run f value vertex_x atol maxiter).2.1)

/-- `LogLikelihood.fit_richness` (lines 370-409).  `u` is the per-object signal
density `self.u` with `none` for IEEE NaN entries; `f` is `self.f`.  Degenerate
checks first: any NaN entry, then `not numpy.any(u)` (all entries exactly zero),
each returning the sentinel `(0, 0, None)`.  Otherwise run the seeded parabola
iteration and return the evaluated point of maximum log-likelihood (first
occurrence, as `numpy.argmax`) together with the last parabola. -/
def fit_richness (u : List (Option ℚ)) (f : ℚ) (value : ℚ → ℚ)
    (vertex_x : Parabola → ℚ) (atol : ℚ) (maxiter : ℕ) : ℚ × ℚ × Option Parabola :=
  if u.any (fun x => x.isNone) then (0, 0, none)
  else if !(u.any np_truthy) then (0, 0, none)
  else
    let res := fit_run f value vertex_x atol maxiter
    let idx := np_argmax res.2.1
    (res.2.1.getD idx 0, res.1.getD idx 0, some res.2.2)

/-- `numpy.linspace lo hi n`: `n` evenly spaced points from `lo` to `hi`
inclusive. -/
def linspace (lo hi : ℚ) (n : ℕ) : List ℚ :=
  (List.range n).map (fun i : ℕ => lo + (i : ℚ) * (hi - lo) / ((n : ℚ) - 1))

/-- Grid construction of `richness_interval` (lines 415-420): `n_pdf_points`
points spanning `[max(0, richness_max - richness_range), richness_max +
richness_range]`, with `0` prepended when the first grid point is strictly
positive. -/
def interval_grid (richness_max richness_range : ℚ) (n_pdf_points : ℕ) : List ℚ :=
  let base := linspace (max 0 (richness_max - richness_range))
    (richness_max + richness_range) n_pdf_points
  if 0 < base.headD 0 then 0 :: base else base

/-- `LogLikelihood.richness_interval` (lines 411-426).  `fit_richness` is called
with its default `atol = 1e-3`, `maxiter = 50`.  `profileUpperLimit` and
`confidenceInterval` are the methods of `ugali.utils.parabola.Parabola`
(modelled from the spec as oracles, the module is not under `src/`).  When
`fit_richness` returned the degenerate sentinel, the parabola object is `None`
and the method call on it raises `AttributeError`. -/
def richness_interval (u : List (Option ℚ)) (f : ℚ) (value : ℚ → ℚ)
    (vertex_x : Parabola → ℚ) (profileUpperLimit : Parabola → ℚ → ℚ)
    (confidenceInterval : Parabola → ℚ → ℚ × ℚ) (alpha : ℚ) (n_pdf_points : ℕ) :
    Except String (ℚ × ℚ) :=
  let res := fit_richness u f value vertex_x (1 / 1000) 50
  match res.2.2 with
  | none => Except.error "AttributeError: NoneType object has no attribute profileUpperLimit"
  | some parabola =>
      let richness_max := res.2.1
      let richness_range := profileUpperLimit parabola 25 - richness_max
      let grid := interval_grid richness_max richness_range n_pdf_points
      let log_likelihood := grid.map value
      Except.ok (confidenceInterval
        (Parabola.mk grid (log_likelihood.map (fun y => 2 * y))) alpha)

/-! Concrete engine instances used by the closed witness and counterexample
theorems below: a one-pixel, one-object configuration with unit densities. -/

/-- A tiny concrete environment: one interior pixel, one catalog object, all
external densities equal to `1`. -/
def env0 : Env :=
  { area_pixel := 1
    observableFraction := fun _ => [1]
    isochrone_pdf := fun _ => [1]
    kernel_pdf_pix := fun _ => [1]
    kernel_pdf_obj := fun _ => [1] }

/-- A freshly constructed engine state: all dirty flags set, background `b = [1]`,
derived arrays not yet populated. -/
def st0 : LLState :=
  { richnessVal := 1
    colorParams := [("distance_modulus", 17)]
    spatialParams := [("lon", 0), ("lat", 0), ("extension", 1)]
    sync_richness := true
    sync_color := true
    sync_spatial := true
    observable_fraction := []
    u_color := []
    u_spatial := []
    surface_intensity_sparse := []
    u := []
    b := [1]
    p := []
    f := 0
    spatial_only := false
    extraAttrs := [] }

/-- The state produced by `sync_params env0 st0`. -/
def st1c : LLState :=
  { st0 with
    sync_richness := false
    sync_color := false
    sync_spatial := false
    observable_fraction := [1]
    u_color := [1]
    u_spatial := [1]
    surface_intensity_sparse := [1]
    u := [1]
    f := 1
    p := [1/2] }

/-- `st1c` after writing `richness := 2`. -/
def st2w : LLState :=
  { st1c with sync_richness := true, richnessVal := 2 }

/-- The state produced by `sync_params env0 st2w`. -/
def st3w : LLState :=
  { st2w with sync_richness := false, u := [1], f := 1, p := [2/3] }

/-- A state with a stale dirty color group (`u_color` holds an out-of-date
value `[5]` while `sync_color` is still set). -/
def stD : LLState :=
  { st0 with
    sync_richness := false
    sync_color := true
    sync_spatial := false
    observable_fraction := [1]
    u_color := [5]
    u_spatial := [1]
    surface_intensity_sparse := [1]
    u := [5]
    f := 1 }

/-- `stD` after writing `richness := 2`. -/
def stD2 : LLState :=
  { stD with sync_richness := true, richnessVal := 2 }

/-- An environment whose kernel density vanishes at the catalog object. -/
def envZ : Env :=
  { area_pixel := 1
    observableFraction := fun _ => [1]
    isochrone_pdf := fun _ => [1]
    kernel_pdf_pix := fun _ => [1]
    kernel_pdf_obj := fun _ => [0] }

/-- A fresh state whose single object has background density `b = [0]`. -/
def stZ : LLState :=
  { st0 with b := [0] }

/-- The state produced by `sync_params envZ stZ`: the object has `u = 0`,
`b = 0`, so the mixture denominator is zero (the stored exact-rational entry is
the convention value `0`, while numpy computes `0/0 = NaN` there). -/
def stZ1 : LLState :=
  { stZ with
    sync_richness := false
    sync_color := false
    sync_spatial := false
    observable_fraction := [1]
    u_color := [1]
    u_spatial := [0]
    surface_intensity_sparse := [1]
    u := [0]
    f := 1
    p := [0] }

/-! Helper lemmas about `sync_params`. -/

/-- A successful `sync_params` run factors into the color branch followed by the
spatial branch and the combination step. -/
theorem sync_params_ok_elim (env : Env) (st st1 : LLState)
    (h : sync_params env st = Except.ok st1) :
    ∃ st2, sync_color_step env st = Except.ok st2
      ∧ st1 = combine_step env (sync_spatial_step env st2) := by
  unfold sync_params at h
  cases hc : sync_color_step env st with
  | error e => rw [hc] at h; cases h
  | ok s =>
      rw [hc] at h
      injection h with h2
      exact ⟨s, rfl, h2.symm⟩

/-- The combination step recomputes `p` from the final `u`, `b` and richness
stored in the resulting state. -/
theorem sync_params_p (env : Env) (st st1 : LLState)
    (h : sync_params env st = Except.ok st1) :
    st1.p = List.zipWith
      (fun ui bi => (st1.richnessVal * ui) / (st1.richnessVal * ui + bi)) st1.u st1.b := by
  obtain ⟨s2, _, rfl⟩ := sync_params_ok_elim env st st1 h
  rfl

/-- Running the combination step twice is the same as running it once. -/
theorem combine_step_idem (env : Env) (s : LLState) :
    combine_step env (combine_step env s) = combine_step env s := rfl

/-- Elementwise access of `zipWith` within bounds. -/
theorem zipWith_getD (f : ℚ → ℚ → ℚ) :
    ∀ (a b : List ℚ) (i : ℕ), i < (List.zipWith f a b).length →
      (List.zipWith f a b).getD i 0 = f (a.getD i 0) (b.getD i 0)
  | [], _, i, h => by simp at h
  | _ :: _, [], i, h => by simp at h
  | _ :: _, _ :: _, 0, _ => rfl
  | a :: as, b :: bs, i + 1, h => by
      simpa using zipWith_getD f as bs i (by simpa using h)

/-- C1 counterexample: a successful `sync_params` run whose single catalog
object has `u_0 = 0`, `b_0 = 0` and `richness = 1` (all nonnegative), so the
mixture denominator `richness * u_0 + b_0` is zero; numpy evaluates line 199
there as `0.0/0.0 = NaN` (`p_mixture` is `none`), which does not satisfy
`0 ≤ p_0 ≤ 1`, so the claim fails in exactly its flagged edge case. -/
theorem sync_params_mixture_zero_denom_cex :
    sync_params envZ stZ = Except.ok stZ1
    ∧ stZ1.richnessVal = 1
    ∧ stZ1.u.getD 0 0 = 0
    ∧ stZ1.b.getD 0 0 = 0
    ∧ stZ1.richnessVal * stZ1.u.getD 0 0 + stZ1.b.getD 0 0 = 0
    ∧ p_mixture stZ1.richnessVal (stZ1.u.getD 0 0) (stZ1.b.getD 0 0) = none := by
  refine ⟨by with_unfolding_all rfl, by with_unfolding_all rfl,
    by with_unfolding_all rfl, by with_unfolding_all rfl,
    by with_unfolding_all rfl, by with_unfolding_all rfl⟩

/-- C1 (amended): after every successful `sync_params` call, for every catalog
object whose mixture denominator `richness * u_i + b_i` is nonzero, the mixture
probability satisfies `p_i = (richness * u_i) / (richness * u_i + b_i)` — the
stored entry agrees with the finite IEEE quotient `p_mixture` — and
`0 ≤ p_i ≤ 1` whenever `u_i ≥ 0`, `b_i ≥ 0` and `richness ≥ 0`.  In the
excluded case `richness * u_i + b_i = 0` numpy computes `0/0 = NaN`, which
violates the bounds (see `sync_params_mixture_zero_denom_cex`). -/
theorem sync_params_mixture_prob (env : Env) (st st1 : LLState)
    (h : sync_params env st = Except.ok st1) (i : ℕ) (hi : i < st1.p.length)
    (hd : st1.richnessVal * st1.u.getD i 0 + st1.b.getD i 0 ≠ 0) :
    st1.p.getD i 0 =
      (st1.richnessVal * st1.u.getD i 0) /
        (st1.richnessVal * st1.u.getD i 0 + st1.b.getD i 0)
    ∧ p_mixture st1.richnessVal (st1.u.getD i 0) (st1.b.getD i 0)
        = some (st1.p.getD i 0)
    ∧ (0 ≤ st1.u.getD i 0 → 0 ≤ st1.b.getD i 0 → 0 ≤ st1.richnessVal →
        0 ≤ st1.p.getD i 0 ∧ st1.p.getD i 0 ≤ 1) := by
  have hp := sync_params_p env st st1 h
  have hlen : i < (List.zipWith
      (fun ui bi => (st1.richnessVal * ui) / (st1.richnessVal * ui + bi))
      st1.u st1.b).length := by rw [← hp]; exact hi
  have heq : st1.p.getD i 0 =
      (st1.richnessVal * st1.u.getD i 0) /
        (st1.richnessVal * st1.u.getD i 0 + st1.b.getD i 0) := by
    rw [hp]; exact zipWith_getD _ st1.u st1.b i hlen
  have hmix : p_mixture st1.richnessVal (st1.u.getD i 0) (st1.b.getD i 0)
      = some (st1.p.getD i 0) := by
    unfold p_mixture
    rw [if_neg hd, heq]
  refine ⟨heq, hmix, fun hu hb hr => ?_⟩
  rw [heq]
  have ha : 0 ≤ st1.richnessVal * st1.u.getD i 0 := mul_nonneg hr hu
  have hdpos : 0 < st1.richnessVal * st1.u.getD i 0 + st1.b.getD i 0 :=
    lt_of_le_of_ne (add_nonneg ha hb) (Ne.symm hd)
  exact ⟨div_nonneg ha (le_of_lt hdpos),
    div_le_one_of_le₀ (le_add_of_nonneg_right hb) (le_of_lt hdpos)⟩

/-- Closed witness for `sync_params_mixture_prob` on the concrete engine
(denominator `1*1 + 1 = 2 ≠ 0`). -/
theorem sync_params_mixture_prob_witness :
    st1c.p.getD 0 0 =
      (st1c.richnessVal * st1c.u.getD 0 0) /
        (st1c.richnessVal * st1c.u.getD 0 0 + st1c.b.getD 0 0)
    ∧ p_mixture st1c.richnessVal (st1c.u.getD 0 0) (st1c.b.getD 0 0)
        = some (st1c.p.getD 0 0)
    ∧ 0 ≤ st1c.p.getD 0 0 ∧ st1c.p.getD 0 0 ≤ 1 := by
  have hsync : sync_params env0 st0 = Except.ok st1c := by with_unfolding_all rfl
  have hd : st1c.richnessVal * st1c.u.getD 0 0 + st1c.b.getD 0 0 ≠ 0 := by
    norm_num [st1c, st0]
  have h := sync_params_mixture_prob env0 st0 st1c hsync 0 (by decide) hd
  exact ⟨h.1, h.2.1,
    h.2.2 (by norm_num [st1c, st0]) (by norm_num [st1c, st0]) (by norm_num [st1c, st0])⟩

/-- C2: on a state produced by a successful `sync_params`, the scalar likelihood
evaluates to `-Σ_i log(1 - p_i) - f * richness` with
`p_i = (richness*u_i)/(richness*u_i + b_i)` over all interior-catalog objects. -/
theorem ll_call_formula (env : Env) (st st1 : LLState) (log : ℚ → ℚ)
    (h : sync_params env st = Except.ok st1) :
    ll_call log st1 =
      -1 * (List.zipWith
          (fun ui bi => log (1 - (st1.richnessVal * ui) / (st1.richnessVal * ui + bi)))
          st1.u st1.b).sum
        - st1.f * st1.richnessVal := by
  unfold ll_call
  rw [sync_params_p env st st1 h, List.map_zipWith]

/-- Closed witness for `ll_call_formula` on the concrete engine. -/
theorem ll_call_formula_witness :
    ll_call (fun _ => 0) st1c =
      -1 * (List.zipWith
          (fun ui bi => (fun _ => (0:ℚ)) (1 - (st1c.richnessVal * ui) / (st1c.richnessVal * ui + bi)))
          st1c.u st1c.b).sum
        - st1c.f * st1c.richnessVal := by
  have hsync : sync_params env0 st0 = Except.ok st1c := by with_unfolding_all rfl
  exact ll_call_formula env0 st0 st1c (fun _ => 0) hsync

/-- C3 counterexample: from a state whose color group is already dirty (stale
`u_color = [5]`), writing only `richness` and then calling `sync_params` changes
`u_color` (to the recomputed `[1]`), so the claim is false for arbitrary engine
states. -/
theorem richness_write_stale_color_cex :
    ll_setattr stD "richness" 2 = Except.ok stD2
    ∧ (sync_params env0 stD2).map (fun s => s.u_color) = Except.ok [1]
    ∧ stD.u_color = [5] := by
  refine ⟨by with_unfolding_all rfl, by with_unfolding_all rfl, rfl⟩

/-- C3 (amended): starting from a state on which `sync_params` has completed
successfully, setting only the richness parameter and re-running `sync_params`
leaves `u_color`, `u_spatial`, `b` and `f` exactly unchanged. -/
theorem richness_only_frame (env : Env) (st st1 st2 st3 : LLState) (r : ℚ)
    (hr : 0 ≤ r)
    (h1 : sync_params env st = Except.ok st1)
    (h2 : ll_setattr st1 "richness" r = Except.ok st2)
    (h3 : sync_params env st2 = Except.ok st3) :
    st3.u_color = st1.u_color ∧ st3.u_spatial = st1.u_spatial
    ∧ st3.b = st1.b ∧ st3.f = st1.f := by
  have hset : ll_setattr st1 "richness" r =
      Except.ok { st1 with sync_richness := true, richnessVal := r } := by
    unfold ll_setattr
    rw [if_pos rfl]
  rw [hset] at h2
  injection h2 with h2
  subst h2
  obtain ⟨s2, _, rfl⟩ := sync_params_ok_elim env st st1 h1
  obtain ⟨s4, hc4, rfl⟩ := sync_params_ok_elim env _ st3 h3
  have hcol : sync_color_step env
      { combine_step env (sync_spatial_step env s2) with
        sync_richness := true, richnessVal := r } =
      Except.ok { combine_step env (sync_spatial_step env s2) with
        sync_richness := true, richnessVal := r } := rfl
  rw [hcol] at hc4
  injection hc4 with hc4
  subst hc4
  exact ⟨rfl, rfl, rfl, rfl⟩

/-- Closed witness for `richness_only_frame` on the concrete engine. -/
theorem richness_only_frame_witness :
    (sync_params env0 st0 = Except.ok st1c
      ∧ ll_setattr st1c "richness" 2 = Except.ok st2w
      ∧ sync_params env0 st2w = Except.ok st3w)
    ∧ (st3w.u_color = st1c.u_color ∧ st3w.u_spatial = st1c.u_spatial
      ∧ st3w.b = st1c.b ∧ st3w.f = st1c.f) := by
  have h1 : sync_params env0 st0 = Except.ok st1c := by with_unfolding_all rfl
  have h2 : ll_setattr st1c "richness" 2 = Except.ok st2w := by with_unfolding_all rfl
  have h3 : sync_params env0 st2w = Except.ok st3w := by with_unfolding_all rfl
  exact ⟨⟨h1, h2, h3⟩,
    richness_only_frame env0 st0 st1c st2w st3w 2 (by norm_num) h1 h2 h3⟩

/-- C4: `sync_params` is idempotent: a second call on the state produced by a
successful call returns that very state (so `u`, `b`, `p`, `f` are unchanged),
and all dirty flags are false after each call. -/
theorem sync_params_idempotent (env : Env) (st st1 : LLState)
    (h : sync_params env st = Except.ok st1) :
    sync_params env st1 = Except.ok st1
    ∧ st1.sync_richness = false ∧ st1.sync_color = false ∧ st1.sync_spatial = false := by
  obtain ⟨s2, _, rfl⟩ := sync_params_ok_elim env st st1 h
  refine ⟨?_, rfl, rfl, rfl⟩
  have e1 : sync_params env (combine_step env (sync_spatial_step env s2)) =
      Except.ok (combine_step env (sync_spatial_step env
        (combine_step env (sync_spatial_step env s2)))) := rfl
  rw [e1]
  have e2 : sync_spatial_step env (combine_step env (sync_spatial_step env s2)) =
      combine_step env (sync_spatial_step env s2) := rfl
  rw [e2, combine_step_idem]

/-- Closed witness for `sync_params_idempotent` on the concrete engine. -/
theorem sync_params_idempotent_witness :
    sync_params env0 st1c = Except.ok st1c
    ∧ st1c.sync_richness = false ∧ st1c.sync_color = false ∧ st1c.sync_spatial = false :=
  sync_params_idempotent env0 st0 st1c (by with_unfolding_all rfl)

/-- C5 counterexample: setting an attribute name owned by no sub-model and not an
existing engine field does not raise: `object.__setattr__` stores it as a new
plain instance attribute, so the write succeeds. -/
theorem ll_setattr_unknown_succeeds_cex :
    ll_setattr st0 "mylabel" 1 =
      Except.ok { st0 with extraAttrs := [("mylabel", 1)] } := by
  with_unfolding_all rfl

/-- C5 (amended): for a name owned by no sub-model, the write raises an
attribute error exactly when the name is one of the engine's read-only derived
properties (`kernel`, `isochrone`, `params`, `pixel`, `u`, `b`, `p`, `f`);
otherwise it succeeds, storing the value as an ordinary engine attribute. -/
theorem ll_setattr_unknown_name (st : LLState) (name : String) (v : ℚ)
    (h1 : name ≠ "richness")
    (h2 : st.colorParams.lookup name = none)
    (h3 : st.spatialParams.lookup name = none) :
    ll_setattr st name v =
      if name ∈ ro_properties
      then Except.error "AttributeError: cannot set attribute"
      else Except.ok { st with extraAttrs := dict_set st.extraAttrs name v } := by
  unfold ll_setattr
  rw [if_neg h1, h2, h3]
  rfl

/-- Closed witness for `ll_setattr_unknown_name` on the concrete engine. -/
theorem ll_setattr_unknown_name_witness :
    ll_setattr st0 "tag" 3 =
      Except.ok { st0 with extraAttrs := [("tag", 3)] } := by
  have h := ll_setattr_unknown_name st0 "tag" 3 (by decide)
    (by with_unfolding_all rfl) (by with_unfolding_all rfl)
  rw [h]
  with_unfolding_all rfl

/-! Helper lemmas about the `fit_richness` iteration. -/

/-- `fit_run` unfolded to its `fit_loop` call. -/
theorem fit_run_eq (f : ℚ) (value : ℚ → ℚ) (vertex_x : Parabola → ℚ) (atol : ℚ)
    (maxiter : ℕ) :
    fit_run f value vertex_x atol maxiter =
      fit_loop value vertex_x atol (maxiter + 1) [0, 1 / f, 10 / f]
        (([0, 1 / f, 10 / f] : List ℚ).map value)
        (Parabola.mk [0, 1 / f, 10 / f]
          ((([0, 1 / f, 10 / f] : List ℚ).map value).map (fun y => 2 * y))) := rfl

/-- Any property of the trial lists preserved by appending one evaluated point is
an invariant of the `fit_richness` loop. -/
theorem fit_loop_invariant2 (value : ℚ → ℚ) (vertex_x : Parabola → ℚ) (atol : ℚ)
    (P : List ℚ → List ℚ → Prop)
    (hP : ∀ r l x, P r l → P (r ++ [x]) (l ++ [value x])) :
    ∀ (fuel : ℕ) (r l : List ℚ) (par : Parabola), P r l →
      P (fit_loop value vertex_x atol fuel r l par).1
        (fit_loop value vertex_x atol fuel r l par).2.1 := by
  intro fuel
  induction fuel with
  | zero => intro r l par h; exact h
  | succ k ih =>
      intro r l par h
      simp only [fit_loop]
      split
      · exact h
      · split
        · exact hP _ _ _ h
        · exact ih _ _ _ (hP _ _ _ h)

/-- The loop body executes at most `fuel` times, each appending one trial point. -/
theorem fit_loop_length (value : ℚ → ℚ) (vertex_x : Parabola → ℚ) (atol : ℚ) :
    ∀ (fuel : ℕ) (r l : List ℚ) (par : Parabola),
      (fit_loop value vertex_x atol fuel r l par).1.length ≤ r.length + fuel := by
  intro fuel
  induction fuel with
  | zero => intro r l par; simp [fit_loop]
  | succ k ih =>
      intro r l par
      simp only [fit_loop]
      split
      · exact Nat.le_add_right r.length (k + 1)
      · split
        · simp only [List.length_append, List.length_singleton]
          omega
        · have := ih (r ++ [vertex_x (Parabola.mk r (l.map (fun y => 2 * y)))])
            (l ++ [value (vertex_x (Parabola.mk r (l.map (fun y => 2 * y))))])
            (Parabola.mk r (l.map (fun y => 2 * y)))
          simp only [List.length_append, List.length_singleton] at this
          omega

/-- `np_argmax` of a nonempty list is a valid index. -/
theorem np_argmax_lt : ∀ (l : List ℚ), l ≠ [] → np_argmax l < l.length
  | [], h => absurd rfl h
  | [_], _ => by simp [np_argmax]
  | x :: y :: ys, _ => by
      have ih := np_argmax_lt (y :: ys) (by simp)
      simp only [np_argmax]
      split
      · simpa [List.length_cons] using Nat.succ_lt_succ ih
      · simp

/-- Every element of a list is bounded by the element at `np_argmax`. -/
theorem np_argmax_le : ∀ (l : List ℚ) (z : ℚ), z ∈ l → z ≤ l.getD (np_argmax l) 0
  | [], z, hz => absurd hz (List.not_mem_nil z)
  | [x], z, hz => by
      simp only [List.mem_singleton] at hz
      simp [np_argmax, hz]
  | x :: y :: ys, z, hz => by
      have ih := fun (w : ℚ) (hw : w ∈ y :: ys) => np_argmax_le (y :: ys) w hw
      simp only [np_argmax]
      split
      · rename_i hlt
        rcases List.mem_cons.1 hz with rfl | hz2
        · exact le_of_lt (by simpa using hlt)
        · simpa using ih z hz2
      · rename_i hge
        rcases List.mem_cons.1 hz with rfl | hz2
        · simp
        · have h1 := ih z hz2
          have h2 : (y :: ys).getD (np_argmax (y :: ys)) 0 ≤ x := le_of_not_lt hge
          simpa using le_trans h1 h2

/-- Degenerate checks of `fit_richness`: any NaN entry of `u`, or all entries
exactly zero, yield the sentinel `(0, 0, None)` for every likelihood oracle. -/
theorem fit_richness_degenerate_aux (u : List (Option ℚ)) (f atol : ℚ)
    (maxiter : ℕ) (value : ℚ → ℚ) (vertex_x : Parabola → ℚ)
    (h : (∃ x ∈ u, x = none) ∨ (∀ x ∈ u, x = some 0)) :
    fit_richness u f value vertex_x atol maxiter = (0, 0, none) := by
  unfold fit_richness
  rcases h with ⟨x, hx, rfl⟩ | h
  · have hn : u.any (fun x => x.isNone) = true := List.any_eq_true.2 ⟨none, hx, rfl⟩
    simp [hn]
  · by_cases hn : u.any (fun x => x.isNone) = true
    · simp [hn]
    · have ht : u.any np_truthy = false := by
        rw [List.any_eq_false]
        intro x hx
        rw [h x hx]
        simp [np_truthy]
      simp [hn, ht]

/-- C6: whenever the per-object signal density `u` contains a NaN entry, or every
entry is exactly zero, `fit_richness` returns the sentinel `(0, 0, None)`; the
equation holds for every likelihood oracle `value`, so no trial richness is
evaluated on this path. -/
theorem fit_richness_degenerate (u : List (Option ℚ)) (f atol : ℚ)
    (maxiter : ℕ) (value : ℚ → ℚ) (vertex_x : Parabola → ℚ)
    (h : (∃ x ∈ u, x = none) ∨ (∀ x ∈ u, x = some 0)) :
    fit_richness u f value vertex_x atol maxiter = (0, 0, none) :=
  fit_richness_degenerate_aux u f atol maxiter value vertex_x h

/-- Closed witness for `fit_richness_degenerate` on an all-zero signal array. -/
theorem fit_richness_degenerate_witness :
    fit_richness [some 0, some 0] 1 (fun r => r) (fun _ => 0) (1 / 1000) 50 =
      (0, 0, none) :=
  fit_richness_degenerate [some 0, some 0] 1 (1 / 1000) 50 (fun r => r) (fun _ => 0)
    (Or.inr (by intro x hx; simpa using hx))

/-- C7: on the non-degenerate path, `fit_richness` first evaluates the likelihood
at exactly the three seed richness values `0`, `1/f`, `10/f` (they are the first
three trial points and every trial log-likelihood is the oracle value at its
trial richness), and the returned `(loglike, richness)` pair is an evaluated
trial point of maximum log-likelihood; in particular the returned log-likelihood
dominates the value at each seed. -/
theorem fit_richness_best_point (u : List (Option ℚ)) (f atol : ℚ) (maxiter : ℕ)
    (value : ℚ → ℚ) (vertex_x : Parabola → ℚ)
    (h1 : u.any (fun x => x.isNone) = false)
    (h2 : u.any np_truthy = true) :
    (fit_trials f value vertex_x atol maxiter).1.take 3 = [0, 1 / f, 10 / f]
    ∧ (fit_trials f value vertex_x atol maxiter).2
        = (fit_trials f value vertex_x atol maxiter).1.map value
    ∧ (fit_richness u f value vertex_x atol maxiter).1
        = value (fit_richness u f value vertex_x atol maxiter).2.1
    ∧ (fit_richness u f value vertex_x atol maxiter).2.1
        ∈ (fit_trials f value vertex_x atol maxiter).1
    ∧ (∀ x ∈ (fit_trials f value vertex_x atol maxiter).2,
        x ≤ (fit_richness u f value vertex_x atol maxiter).1)
    ∧ value 0 ≤ (fit_richness u f value vertex_x atol maxiter).1
    ∧ value (1 / f) ≤ (fit_richness u f value vertex_x atol maxiter).1
    ∧ value (10 / f) ≤ (fit_richness u f value vertex_x atol maxiter).1 := by
  have hfr : fit_richness u f value vertex_x atol maxiter =
      ((fit_run f value vertex_x atol maxiter).2.1.getD
          (np_argmax (fit_run f value vertex_x atol maxiter).2.1) 0,
        (fit_run f value vertex_x atol maxiter).1.getD
          (np_argmax (fit_run f value vertex_x atol maxiter).2.1) 0,
        some (fit_run f value vertex_x atol maxiter).2.2) := by
    unfold fit_richness
    simp [h1, h2]
  have hT1 : (fit_trials f value vertex_x atol maxiter).1
      = (fit_run f value vertex_x atol maxiter).1 := rfl
  have hT2 : (fit_trials f value vertex_x atol maxiter).2
      = (fit_run f value vertex_x atol maxiter).2.1 := rfl
  have hpre : ∃ t, (fit_run f value vertex_x atol maxiter).1
      = [0, 1 / f, 10 / f] ++ t := by
    rw [fit_run_eq]
    exact fit_loop_invariant2 value vertex_x atol
      (fun r _ => ∃ t, r = [0, 1 / f, 10 / f] ++ t)
      (fun r l x h => by
        obtain ⟨t, ht⟩ := h
        exact ⟨t ++ [x], by rw [ht, List.append_assoc]⟩)
      (maxiter + 1) _ _ _ ⟨[], by simp⟩
  have hmap : (fit_run f value vertex_x atol maxiter).2.1
      = (fit_run f value vertex_x atol maxiter).1.map value := by
    rw [fit_run_eq]
    exact fit_loop_invariant2 value vertex_x atol
      (fun r l => l = r.map value)
      (fun r l x h => by
        show l ++ [value x] = List.map value (r ++ [x])
        rw [h, List.map_append]
        rfl)
      (maxiter + 1) _ _ _ rfl
  obtain ⟨t, ht⟩ := hpre
  have hRne : (fit_run f value vertex_x atol maxiter).1 ≠ [] := by
    rw [ht]; simp
  have hLne : (fit_run f value vertex_x atol maxiter).2.1 ≠ [] := by
    rw [hmap]; simpa using hRne
  have hlen : (fit_run f value vertex_x atol maxiter).2.1.length
      = (fit_run f value vertex_x atol maxiter).1.length := by
    rw [hmap, List.length_map]
  have hidx : np_argmax (fit_run f value vertex_x atol maxiter).2.1
      < (fit_run f value vertex_x atol maxiter).2.1.length :=
    np_argmax_lt _ hLne
  have hidxR : np_argmax (fit_run f value vertex_x atol maxiter).2.1
      < (fit_run f value vertex_x atol maxiter).1.length := by
    rw [← hlen]; exact hidx
  have htake : (fit_run f value vertex_x atol maxiter).1.take 3 = [0, 1 / f, 10 / f] := by
    rw [ht]
    have h3 : ([0, 1 / f, 10 / f] : List ℚ).length = 3 := rfl
    rw [← h3, List.take_left]
  have hgetmap : ∀ i, i < (fit_run f value vertex_x atol maxiter).1.length →
      (fit_run f value vertex_x atol maxiter).2.1.getD i 0
        = value ((fit_run f value vertex_x atol maxiter).1.getD i 0) := by
    intro i hi
    rw [hmap, List.getD_eq_getElem _ _ (by simpa using hi), List.getElem_map,
      List.getD_eq_getElem _ _ hi]
  have hmem : ∀ i, i < (fit_run f value vertex_x atol maxiter).1.length →
      (fit_run f value vertex_x atol maxiter).1.getD i 0
        ∈ (fit_run f value vertex_x atol maxiter).1 := by
    intro i hi
    rw [List.getD_eq_getElem _ _ hi]
    exact List.getElem_mem hi
  have hbest : ∀ x ∈ (fit_run f value vertex_x atol maxiter).2.1,
      x ≤ (fit_richness u f value vertex_x atol maxiter).1 := by
    intro x hx
    rw [hfr]
    exact np_argmax_le _ x hx
  have hseed : ∀ s ∈ ([0, 1 / f, 10 / f] : List ℚ),
      value s ≤ (fit_richness u f value vertex_x atol maxiter).1 := by
    intro s hs
    have hsR : s ∈ (fit_run f value vertex_x atol maxiter).1 := by
      rw [ht]; exact List.mem_append_left _ hs
    have hvL : value s ∈ (fit_run f value vertex_x atol maxiter).2.1 := by
      rw [hmap]; exact List.mem_map_of_mem value hsR
    exact hbest _ hvL
  refine ⟨by rw [hT1]; exact htake,
    by rw [hT1, hT2]; exact hmap,
    by rw [hfr]; exact hgetmap _ hidxR,
    by rw [hfr, hT1]; exact hmem _ hidxR,
    by rw [hT2]; exact hbest,
    hseed 0 (by simp), hseed (1 / f) (by simp), hseed (10 / f) (by simp)⟩

/-- Closed witness for `fit_richness_best_point` on a concrete run that stops at
the seed points (negative vertex). -/
theorem fit_richness_best_point_witness :
    (fit_trials 1 (fun r => r) (fun _ => -1) (1 / 1000) 50).1.take 3 = [0, 1 / 1, 10 / 1]
    ∧ (fit_trials 1 (fun r => r) (fun _ => -1) (1 / 1000) 50).2
        = (fit_trials 1 (fun r => r) (fun _ => -1) (1 / 1000) 50).1.map (fun r => r)
    ∧ (fit_richness [some 1] 1 (fun r => r) (fun _ => -1) (1 / 1000) 50).1
        = (fit_richness [some 1] 1 (fun r => r) (fun _ => -1) (1 / 1000) 50).2.1
    ∧ (fit_richness [some 1] 1 (fun r => r) (fun _ => -1) (1 / 1000) 50).2.1
        ∈ (fit_trials 1 (fun r => r) (fun _ => -1) (1 / 1000) 50).1
    ∧ (∀ x ∈ (fit_trials 1 (fun r => r) (fun _ => -1) (1 / 1000) 50).2,
        x ≤ (fit_richness [some 1] 1 (fun r => r) (fun _ => -1) (1 / 1000) 50).1)
    ∧ (0 : ℚ) ≤ (fit_richness [some 1] 1 (fun r => r) (fun _ => -1) (1 / 1000) 50).1
    ∧ (1 / 1 : ℚ) ≤ (fit_richness [some 1] 1 (fun r => r) (fun _ => -1) (1 / 1000) 50).1
    ∧ (10 / 1 : ℚ) ≤ (fit_richness [some 1] 1 (fun r => r) (fun _ => -1) (1 / 1000) 50).1 :=
  fit_richness_best_point [some 1] 1 (1 / 1000) 50 (fun r => r) (fun _ => -1)
    (by with_unfolding_all rfl) (by with_unfolding_all rfl)

/-- C8 counterexample: with `maxiter = 1` the loop body executes twice (the
iteration counter is checked only after the body), so five trial points are
evaluated where the claim allows at most `3 + maxiter = 4`. -/
theorem fit_richness_maxiter_cex :
    (fit_trials 1 (fun r => r) (fun _ => 1) (1 / 1000) 1).1.length = 5
    ∧ ¬ (fit_trials 1 (fun r => r) (fun _ => 1) (1 / 1000) 1).1.length ≤ 3 + 1 := by
  have h : (fit_trials 1 (fun r => r) (fun _ => 1) (1 / 1000) 1).1.length = 5 := by
    with_unfolding_all rfl
  exact ⟨h, by rw [h]; decide⟩

/-- C8 (amended): the iteration loop of `fit_richness` always terminates, its
body running at most `maxiter + 1` times (the counter is incremented and checked
after the body), so at most `maxiter + 1` trial points are appended to the three
seeds; a negative parabola vertex at the seed stage terminates immediately with
no appended point, and the best evaluated point is still returned (the return
value is covered by `fit_richness_best_point`). -/
theorem fit_trials_iteration_cap (f atol : ℚ) (maxiter : ℕ) (value : ℚ → ℚ)
    (vertex_x : Parabola → ℚ) :
    (fit_trials f value vertex_x atol maxiter).1.length ≤ 3 + (maxiter + 1)
    ∧ (vertex_x (Parabola.mk [0, 1 / f, 10 / f]
          ((([0, 1 / f, 10 / f] : List ℚ).map value).map (fun y => 2 * y))) < 0 →
        fit_trials f value vertex_x atol maxiter
          = ([0, 1 / f, 10 / f], ([0, 1 / f, 10 / f] : List ℚ).map value)) := by
  constructor
  · have h := fit_loop_length value vertex_x atol (maxiter + 1) [0, 1 / f, 10 / f]
      (([0, 1 / f, 10 / f] : List ℚ).map value)
      (Parabola.mk [0, 1 / f, 10 / f]
        ((([0, 1 / f, 10 / f] : List ℚ).map value).map (fun y => 2 * y)))
    have e : (fit_trials f value vertex_x atol maxiter).1
        = (fit_loop value vertex_x atol (maxiter + 1) [0, 1 / f, 10 / f]
            (([0, 1 / f, 10 / f] : List ℚ).map value)
            (Parabola.mk [0, 1 / f, 10 / f]
              ((([0, 1 / f, 10 / f] : List ℚ).map value).map (fun y => 2 * y)))).1 := rfl
    rw [e]
    simpa using h
  · intro hneg
    have e : fit_trials f value vertex_x atol maxiter
        = ((fit_loop value vertex_x atol (maxiter + 1) [0, 1 / f, 10 / f]
            (([0, 1 / f, 10 / f] : List ℚ).map value)
            (Parabola.mk [0, 1 / f, 10 / f]
              ((([0, 1 / f, 10 / f] : List ℚ).map value).map (fun y => 2 * y)))).1,
           (fit_loop value vertex_x atol (maxiter + 1) [0, 1 / f, 10 / f]
            (([0, 1 / f, 10 / f] : List ℚ).map value)
            (Parabola.mk [0, 1 / f, 10 / f]
              ((([0, 1 / f, 10 / f] : List ℚ).map value).map (fun y => 2 * y)))).2.1) := rfl
    rw [e]
    simp only [fit_loop]
    rw [if_pos hneg]

/-- Closed witness for `fit_trials_iteration_cap`, discharging the negative-vertex
implication at a concrete oracle. -/
theorem fit_trials_iteration_cap_witness :
    (fit_trials 1 (fun r => r) (fun _ => -1) (1 / 1000) 5).1.length ≤ 3 + (5 + 1)
    ∧ fit_trials 1 (fun r => r) (fun _ => -1) (1 / 1000) 5
        = ([0, 1 / 1, 10 / 1], ([0, 1 / 1, 10 / 1] : List ℚ).map (fun r => r)) := by
  have h := fit_trials_iteration_cap 1 (1 / 1000) 5 (fun r => r) (fun _ => -1)
  exact ⟨h.1, h.2 (by norm_num)⟩

/-! Helper lemmas about `linspace` and `interval_grid`. -/

/-- `headD` is access at index zero. -/
theorem headD_eq_getD (l : List ℚ) : l.headD 0 = l.getD 0 0 := by
  cases l <;> rfl

/-- `linspace` has exactly `n` points. -/
theorem linspace_length (lo hi : ℚ) (n : ℕ) : (linspace lo hi n).length = n := by
  simp [linspace]

/-- Pointwise description of `linspace`. -/
theorem linspace_getD (lo hi : ℚ) (n i : ℕ) (h : i < n) :
    (linspace lo hi n).getD i 0 = lo + i * (hi - lo) / ((n : ℚ) - 1) := by
  unfold linspace
  rw [List.getD_eq_getElem _ _ (by simpa using h), List.getElem_map, List.getElem_range]

/-- The first `linspace` point is the lower endpoint. -/
theorem linspace_first (lo hi : ℚ) (n : ℕ) (h : 0 < n) :
    (linspace lo hi n).getD 0 0 = lo := by
  rw [linspace_getD lo hi n 0 h]
  simp

/-- The last `linspace` point is the upper endpoint (for at least two points). -/
theorem linspace_last (lo hi : ℚ) (n : ℕ) (h : 2 ≤ n) :
    (linspace lo hi n).getD (n - 1) 0 = hi := by
  rw [linspace_getD lo hi n (n - 1) (by omega)]
  rw [Nat.cast_sub (by omega : 1 ≤ n), Nat.cast_one]
  have hne : ((n : ℚ) - 1) ≠ 0 := by
    have h2 : (2 : ℚ) ≤ (n : ℚ) := by exact_mod_cast h
    intro h0
    linarith
  rw [mul_div_cancel_left₀ _ hne]
  ring

/-- Within bounds, `getD` hits a member of the list. -/
theorem getD_mem (l : List ℚ) (i : ℕ) (h : i < l.length) : l.getD i 0 ∈ l := by
  rw [List.getD_eq_getElem _ _ h]
  exact List.getElem_mem h

/-- Membership through a `getD` evaluation. -/
theorem mem_of_getD (l : List ℚ) (i : ℕ) (x : ℚ) (h : i < l.length)
    (he : l.getD i 0 = x) : x ∈ l :=
  he ▸ getD_mem l i h

/-- The `interval_grid` prepends `0` exactly when the lower bound is positive. -/
theorem interval_grid_cases (rmax rrange : ℚ) (n : ℕ) (hn : 2 ≤ n) :
    interval_grid rmax rrange n =
      if 0 < max 0 (rmax - rrange) then
        0 :: linspace (max 0 (rmax - rrange)) (rmax + rrange) n
      else linspace (max 0 (rmax - rrange)) (rmax + rrange) n := by
  simp only [interval_grid]
  rw [headD_eq_getD, linspace_first _ _ _ (by omega)]

/-- Grid facts for `interval_grid`: zero is always a grid point; the grid is the
`n`-point `linspace` with `0` prepended exactly when the lower bound is
positive; the last grid point is `richness_max + richness_range`. -/
theorem interval_grid_spec (rmax rrange : ℚ) (n : ℕ) (hn : 2 ≤ n) :
    (0 : ℚ) ∈ interval_grid rmax rrange n
    ∧ (0 < max 0 (rmax - rrange) →
        interval_grid rmax rrange n
          = 0 :: linspace (max 0 (rmax - rrange)) (rmax + rrange) n
        ∧ (interval_grid rmax rrange n).length = n + 1)
    ∧ (max 0 (rmax - rrange) = 0 →
        interval_grid rmax rrange n
          = linspace (max 0 (rmax - rrange)) (rmax + rrange) n
        ∧ (interval_grid rmax rrange n).length = n)
    ∧ (interval_grid rmax rrange n).getD ((interval_grid rmax rrange n).length - 1) 0
        = rmax + rrange := by
  have hcase := interval_grid_cases rmax rrange n hn
  have hm : (0 : ℚ) ≤ max 0 (rmax - rrange) := le_max_left 0 _
  rcases eq_or_lt_of_le hm with heq | hlt
  · have hgrid : interval_grid rmax rrange n
        = linspace (max 0 (rmax - rrange)) (rmax + rrange) n := by
      rw [hcase, if_neg (by rw [← heq]; exact lt_irrefl 0)]
    refine ⟨?_, fun habs => absurd habs (by rw [← heq]; exact lt_irrefl 0),
      fun _ => ⟨hgrid, by rw [hgrid, linspace_length]⟩, ?_⟩
    · rw [hgrid]
      exact mem_of_getD _ 0 _ (by rw [linspace_length]; omega)
        (by rw [linspace_first _ _ _ (by omega : 0 < n)]; exact heq.symm)
    · rw [hgrid, linspace_length, linspace_last _ _ _ hn]
  · have hgrid : interval_grid rmax rrange n
        = 0 :: linspace (max 0 (rmax - rrange)) (rmax + rrange) n := by
      rw [hcase, if_pos hlt]
    refine ⟨by rw [hgrid]; exact List.mem_cons_self _ _,
      fun _ => ⟨hgrid, by rw [hgrid]; simp [linspace_length]⟩,
      fun habs => absurd habs (by intro h0; rw [h0] at hlt; exact lt_irrefl 0 hlt), ?_⟩
    rw [hgrid]
    have hidx : (0 :: linspace (max 0 (rmax - rrange)) (rmax + rrange) n).length - 1
        = (n - 1) + 1 := by
      simp [linspace_length]
      omega
    rw [hidx, List.getD_cons_succ, linspace_last _ _ _ hn]

/-- C9: `richness_interval` samples the likelihood on exactly the
`interval_grid` of `n_pdf_points` values spanning
`[max(0, richness_max - range), richness_max + range]`, and that grid always
contains richness `0`: when its lower bound is strictly positive, `0` is
prepended (so `n_pdf_points + 1` values are evaluated), otherwise the lower
bound itself is `0` and the grid keeps `n_pdf_points` values; the last grid
point is `richness_max + range`. -/
theorem richness_interval_grid (u : List (Option ℚ)) (f : ℚ) (value : ℚ → ℚ)
    (vertex_x : Parabola → ℚ) (pul : Parabola → ℚ → ℚ) (ci : Parabola → ℚ → ℚ × ℚ)
    (alpha : ℚ) (n : ℕ) (par : Parabola) (hn : 2 ≤ n)
    (hpar : (fit_richness u f value vertex_x (1 / 1000) 50).2.2 = some par) :
    richness_interval u f value vertex_x pul ci alpha n
      = Except.ok (ci (Parabola.mk
          (interval_grid (fit_richness u f value vertex_x (1 / 1000) 50).2.1
            (pul par 25 - (fit_richness u f value vertex_x (1 / 1000) 50).2.1) n)
          (((interval_grid (fit_richness u f value vertex_x (1 / 1000) 50).2.1
            (pul par 25 - (fit_richness u f value vertex_x (1 / 1000) 50).2.1) n).map
              value).map (fun y => 2 * y))) alpha)
    ∧ ∀ rmax rrange : ℚ,
        (0 : ℚ) ∈ interval_grid rmax rrange n
        ∧ (0 < max 0 (rmax - rrange) →
            interval_grid rmax rrange n
              = 0 :: linspace (max 0 (rmax - rrange)) (rmax + rrange) n
            ∧ (interval_grid rmax rrange n).length = n + 1)
        ∧ (max 0 (rmax - rrange) = 0 →
            interval_grid rmax rrange n
              = linspace (max 0 (rmax - rrange)) (rmax + rrange) n
            ∧ (interval_grid rmax rrange n).length = n)
        ∧ (interval_grid rmax rrange n).getD
            ((interval_grid rmax rrange n).length - 1) 0 = rmax + rrange := by
  constructor
  · simp only [richness_interval]
    rw [hpar]
  · intro rmax rrange
    exact interval_grid_spec rmax rrange n hn

/-- Closed witness for `richness_interval_grid` on a concrete non-degenerate run. -/
theorem richness_interval_grid_witness :
    richness_interval [some 1] 1 (fun r => r) (fun _ => -1) (fun _ _ => 12)
        (fun _ _ => ((0 : ℚ), (0 : ℚ))) (6827 / 10000) 2 = Except.ok (0, 0)
    ∧ (0 : ℚ) ∈ interval_grid 10 2 2
    ∧ (interval_grid 10 2 2).length = 2 + 1 := by
  have h := richness_interval_grid [some 1] 1 (fun r => r) (fun _ => -1)
    (fun _ _ => 12) (fun _ _ => ((0 : ℚ), (0 : ℚ))) (6827 / 10000) 2
    (Parabola.mk [0, 1, 10] [0, 2, 20]) (by omega) (by with_unfolding_all rfl)
  refine ⟨?_, (h.2 10 2).1, ((h.2 10 2).2.1 (by norm_num [lt_max_iff])).2⟩
  rw [h.1]

/-- C10: under the degenerate-signal condition (a NaN entry in `u`, or all
entries zero) `fit_richness` yields a `None` parabola and `richness_interval`
fails with an attribute error instead of returning a sentinel value: the
degeneracy propagates as an exception. -/
theorem richness_interval_degenerate (u : List (Option ℚ)) (f : ℚ) (value : ℚ → ℚ)
    (vertex_x : Parabola → ℚ) (pul : Parabola → ℚ → ℚ) (ci : Parabola → ℚ → ℚ × ℚ)
    (alpha : ℚ) (n : ℕ)
    (h : (∃ x ∈ u, x = none) ∨ (∀ x ∈ u, x = some 0)) :
    richness_interval u f value vertex_x pul ci alpha n
      = Except.error "AttributeError: NoneType object has no attribute profileUpperLimit" := by
  simp only [richness_interval]
  rw [fit_richness_degenerate_aux u f (1 / 1000) 50 value vertex_x h]

/-- Closed witness for `richness_interval_degenerate` on a NaN signal array. -/
theorem richness_interval_degenerate_witness :
    richness_interval [none] 1 (fun r => r) (fun _ => 0) (fun _ _ => 0)
        (fun _ _ => ((0 : ℚ), (0 : ℚ))) (6827 / 10000) 100
      = Except.error "AttributeError: NoneType object has no attribute profileUpperLimit" :=
  richness_interval_degenerate [none] 1 (fun r => r) (fun _ => 0) (fun _ _ => 0)
    (fun _ _ => ((0 : ℚ), (0 : ℚ))) (6827 / 10000) 100
    (Or.inl ⟨none, by simp, rfl⟩)
